import Mathlib

/-!
Verification of the go-guacamole client library (package `guacamole`).

This file gives a shallow embedding of the parts of the Go source that the
behavioural claims are about:

* the `NullableStringMap` JSON codec (types.go),
* the JSON-Patch builder functions (users.go patch helpers),
* the `APIError` type with the `IsNotFound` / `IsPermissionDenied`
  chain predicates (errors.go),
* the request pipeline pieces of client.go: `parseError`, the non-2xx
  check of `do`, the header construction of `do`, `dataPath` together
  with a faithful model of Go's `url.PathEscape`, and `Authenticate`
  as a state transition on the client's session fields.

Go maps are modelled as association lists (`List (String × String)`); the
order of entries is irrelevant to every property proved here.  A possibly
`nil` Go map is modelled as an `Option` of such a list, `none` standing for
the nil (zero-value) map.  Go strings are Lean `String`s; the inputs in all
claims are ASCII, and the byte-level escaping of `url.PathEscape` is
modelled character-wise on that ASCII fragment.
-/

namespace Guacamole

/-- A JSON value, as produced by `encoding/json`.  Only the constructors
needed to observe the marshalling behaviour of the client are included. -/
inductive Json where
  | null
  | str (s : String)
  | obj (fields : List (String × Json))

/-- Whether a JSON value is an object literal. -/
def Json.isObj : Json → Bool
  | .obj _ => true
  | _ => false

/-- Go `map[string]string` as an association list. -/
abbrev StrMap := List (String × String)

/-- The keys of an association list, in entry order. -/
def keysOf {α β : Type} (l : List (α × β)) : List α :=
  l.map Prod.fst

/-- Go map indexing `m[k]` on a `map[string]string`: the stored value when
the key is present, and the zero value `""` when it is absent. -/
def lookupD : StrMap → String → String
  | [], _ => ""
  | (k, v) :: rest, key => if k = key then v else lookupD rest key

/-- `NullableStringMap` (types.go): a `map[string]string` that may be nil.
`none` is the nil (zero-value) map. -/
abbrev NullableStringMap := Option StrMap

/-- `NullableStringMap.MarshalJSON` (types.go): a nil map serialises as the
empty object; otherwise it defers to `json.Marshal` on the underlying
`map[string]string`, which always yields an object literal. -/
def marshalNSM : NullableStringMap → Json
  | none => Json.obj []
  | some m => Json.obj (m.map fun kv => (kv.1, Json.str kv.2))

/-- `NullableStringMap.UnmarshalJSON` (types.go): the body decodes as a
`map[string]*string`; the loop copies only the entries whose value pointer
is non-nil, so a `null` value leaves its key out of the freshly made map.
The input JSON object is the list of its key/value pairs, a `null` value
being `none`. -/
def unmarshalNSM : List (String × Option String) → StrMap
  | [] => []
  | (_, none) :: rest => unmarshalNSM rest
  | (k, some s) :: rest => (k, s) :: unmarshalNSM rest

/-- `PatchOperation` (types.go): one RFC 6902 JSON Patch operation.  The Go
field `Type` of `APIError` below is renamed `ErrType` because `Type` is a
reserved word in Lean; all other field names follow the source. -/
structure PatchOperation where
  Op : String
  Path : String
  Value : String
  deriving DecidableEq, Repr

/-- `AddConnectionPermission` (users.go). -/
def AddConnectionPermission (connectionID permission : String) : PatchOperation :=
  ⟨"add", "/connectionPermissions/" ++ connectionID, permission⟩

/-- `RemoveConnectionPermission` (users.go). -/
def RemoveConnectionPermission (connectionID permission : String) : PatchOperation :=
  ⟨"remove", "/connectionPermissions/" ++ connectionID, permission⟩

/-- `AddConnectionGroupPermission` (users.go). -/
def AddConnectionGroupPermission (groupID permission : String) : PatchOperation :=
  ⟨"add", "/connectionGroupPermissions/" ++ groupID, permission⟩

/-- `RemoveConnectionGroupPermission` (users.go). -/
def RemoveConnectionGroupPermission (groupID permission : String) : PatchOperation :=
  ⟨"remove", "/connectionGroupPermissions/" ++ groupID, permission⟩

/-- `AddSharingProfilePermission` (users.go). -/
def AddSharingProfilePermission (profileID permission : String) : PatchOperation :=
  ⟨"add", "/sharingProfilePermissions/" ++ profileID, permission⟩

/-- `RemoveSharingProfilePermission` (users.go). -/
def RemoveSharingProfilePermission (profileID permission : String) : PatchOperation :=
  ⟨"remove", "/sharingProfilePermissions/" ++ profileID, permission⟩

/-- `AddUserPermission` (users.go). -/
def AddUserPermission (targetUsername permission : String) : PatchOperation :=
  ⟨"add", "/userPermissions/" ++ targetUsername, permission⟩

/-- `RemoveUserPermission` (users.go). -/
def RemoveUserPermission (targetUsername permission : String) : PatchOperation :=
  ⟨"remove", "/userPermissions/" ++ targetUsername, permission⟩

/-- `AddUserGroupPermission` (users.go). -/
def AddUserGroupPermission (groupID permission : String) : PatchOperation :=
  ⟨"add", "/userGroupPermissions/" ++ groupID, permission⟩

/-- `RemoveUserGroupPermission` (users.go). -/
def RemoveUserGroupPermission (groupID permission : String) : PatchOperation :=
  ⟨"remove", "/userGroupPermissions/" ++ groupID, permission⟩

/-- `AddSystemPermission` (users.go): no id segment, the permission name is
the value. -/
def AddSystemPermission (permission : String) : PatchOperation :=
  ⟨"add", "/systemPermissions", permission⟩

/-- `RemoveSystemPermission` (users.go). -/
def RemoveSystemPermission (permission : String) : PatchOperation :=
  ⟨"remove", "/systemPermissions", permission⟩

/-- `AddGroupMembership` (users.go): path `/`, the member identifier is the
value. -/
def AddGroupMembership (identifier : String) : PatchOperation :=
  ⟨"add", "/", identifier⟩

/-- `RemoveGroupMembership` (users.go). -/
def RemoveGroupMembership (identifier : String) : PatchOperation :=
  ⟨"remove", "/", identifier⟩

/-- `ErrTypeNotFound` (errors.go). -/
def ErrTypeNotFound : String := "NOT_FOUND"

/-- `ErrTypePermissionDenied` (errors.go). -/
def ErrTypePermissionDenied : String := "PERMISSION_DENIED"

/-- `APIError` (errors.go).  The Go field `Type` is written `ErrType` here
because `Type` is reserved in Lean; `HTTPStatus` is the response's HTTP
status code. -/
structure APIError where
  Message : String
  ErrType : String
  HTTPStatus : Nat
  deriving DecidableEq, Repr

/-- `(*APIError).IsNotFound` (errors.go). -/
def APIError.IsNotFound (e : APIError) : Bool :=
  e.ErrType = ErrTypeNotFound

/-- `(*APIError).IsPermissionDenied` (errors.go). -/
def APIError.IsPermissionDenied (e : APIError) : Bool :=
  e.ErrType = ErrTypePermissionDenied

/-- A Go error value as this package builds them: an `*APIError`, an error
wrapping another with added context (`fmt.Errorf` with `%w`), or any other
leaf error.  `*APIError` has no `Unwrap`, so it is always a chain's end. -/
inductive GoError where
  | apiErr (e : APIError)
  | wrap (context : String) (inner : GoError)
  | other (msg : String)
  deriving DecidableEq, Repr

/-- `errors.As(err, &apiErr)` on a non-nil chain: the first `*APIError` met
while unwrapping. -/
def asAPIError : GoError → Option APIError
  | .apiErr e => some e
  | .wrap _ inner => asAPIError inner
  | .other _ => none

/-- `errors.As(err, &apiErr)` including the nil case (`errors.As` finds
nothing in a nil error). -/
def errorsAsAPIError : Option GoError → Option APIError
  | none => none
  | some e => asAPIError e

/-- `IsNotFound` (errors.go): true when the chain holds an `*APIError` whose
type is `NOT_FOUND`. -/
def IsNotFound (err : Option GoError) : Bool :=
  match errorsAsAPIError err with
  | some a => a.IsNotFound
  | none => false

/-- `IsPermissionDenied` (errors.go). -/
def IsPermissionDenied (err : Option GoError) : Bool :=
  match errorsAsAPIError err with
  | some a => a.IsPermissionDenied
  | none => false

/-- The `*APIError`s an error chain passes through, outermost first.  This is
the specification-side notion of "the chain contains an `*APIError`". -/
def errChain : Option GoError → List APIError
  | none => []
  | some e => chain e
where
  chain : GoError → List APIError
    | .apiErr a => [a]
    | .wrap _ inner => chain inner
    | .other _ => []

/-- A non-2xx response body as `parseError` (client.go) observes it: empty,
unreadable, decodable by `json.Unmarshal` into an `APIError` (each of the
`message`/`type` fields present or absent), or a non-empty body that
`json.Unmarshal` rejects, kept as raw text. -/
inductive RespBody where
  | empty
  | readFailure
  | jsonFields (message etype : Option String)
  | raw (s : String)
  deriving DecidableEq, Repr

/-- `http.StatusText` restricted to the codes this development evaluates;
like Go, unknown codes give the empty string. -/
def statusText (code : Nat) : String :=
  if code = 200 then "OK"
  else if code = 201 then "Created"
  else if code = 204 then "No Content"
  else if code = 400 then "Bad Request"
  else if code = 401 then "Unauthorized"
  else if code = 403 then "Forbidden"
  else if code = 404 then "Not Found"
  else if code = 500 then "Internal Server Error"
  else if code = 503 then "Service Unavailable"
  else ""

/-- `Client.parseError` (client.go): start from `HTTPStatus` set to the
response status and zero-valued `Message`/`Type`; an empty or unreadable
body falls back to `http.StatusText`; a decodable body fills in whichever
of `message`/`type` it carries; a body `json.Unmarshal` rejects becomes the
message verbatim, the type staying empty. -/
def parseError (status : Nat) (body : RespBody) : APIError :=
  match body with
  | .empty => ⟨statusText status, "", status⟩
  | .readFailure => ⟨statusText status, "", status⟩
  | .jsonFields message etype => ⟨message.getD "", etype.getD "", status⟩
  | .raw s => ⟨s, "", status⟩

/-- The session-holding fields of `Client` (client.go). -/
structure ClientState where
  baseURL : String
  authToken : String
  dataSource : String
  deriving DecidableEq, Repr

/-- `Client.AuthToken` (client.go). -/
def ClientState.AuthToken (c : ClientState) : String :=
  c.authToken

/-- `Client.DataSource` (client.go). -/
def ClientState.DataSource (c : ClientState) : String :=
  c.dataSource

/-- The request as `Client.do` (client.go) hands it to the transport: the
method, the target URL, and the two conditionally set headers.  A header
that `do` does not set is `none` — the header is absent, not empty. -/
structure GoRequest where
  method : String
  url : String
  contentType : Option String
  guacToken : Option String
  deriving DecidableEq, Repr

/-- The request-building half of `Client.do` (client.go): `Content-Type` is
set to `application/json` exactly when a body is supplied, and
`Guacamole-Token` is set to the stored token exactly when that token is not
the empty string. -/
def buildRequest (c : ClientState) (method p : String) (body : Option Json) : GoRequest :=
  ⟨method, c.baseURL ++ p,
    if body.isSome then some "application/json" else none,
    if c.authToken ≠ "" then some c.authToken else none⟩

/-- The response-classifying half of `Client.do` (client.go): a status
outside [200,300) returns `parseError` of the response, any other status
passes the response through. -/
def doCheck (status : Nat) (body : RespBody) : Except APIError Unit :=
  if status < 200 ∨ 300 ≤ status then .error (parseError status body) else .ok ()

/-- `AuthResponse` (types.go). -/
structure AuthResponse where
  AuthToken : String
  Username : String
  DataSource : String
  AvailableDataSources : List String
  deriving DecidableEq, Repr

/-- What `Client.Authenticate` observes of the token-exchange response: the
status, the body as `parseError` would read it, and the body decoded as an
`AuthResponse` (`none` when `json.Decode` fails). -/
structure TokenResponse where
  status : Nat
  errBody : RespBody
  authBody : Option AuthResponse
  deriving DecidableEq, Repr

/-- `Client.Authenticate` (client.go) from the response on: any status other
than exactly `http.StatusOK` (200) returns `parseError` of the response and
assigns nothing; on 200, a failed decode returns a wrapped decode error,
still assigning nothing; otherwise the token and data source are stored.
Returns the state after the call and the returned error. -/
def Authenticate (c : ClientState) (resp : TokenResponse) : ClientState × Option GoError :=
  if resp.status ≠ 200 then
    (c, some (.apiErr (parseError resp.status resp.errBody)))
  else
    match resp.authBody with
    | none => (c, some (.other "guacamole: decode auth response"))
    | some auth => (⟨c.baseURL, auth.AuthToken, auth.DataSource⟩, none)

/-- Go `url.shouldEscape(c, encodePathSegment)` (net/url), the predicate
behind `url.PathEscape`, for ASCII bytes.  Alphanumerics and the unreserved
marks `-`, `_`, `.`, `~` are never escaped; of the RFC 3986 reserved set
`$ & + , / : ; = ? @` only `/`, `;`, `,` and `?` are escaped in a path
segment; every other byte is escaped. -/
def shouldEscapePathSegment (c : Char) : Bool :=
  if ('a' ≤ c ∧ c ≤ 'z') ∨ ('A' ≤ c ∧ c ≤ 'Z') ∨ ('0' ≤ c ∧ c ≤ '9') then
    false
  else if c = '-' ∨ c = '_' ∨ c = '.' ∨ c = '~' then
    false
  else if c = '$' ∨ c = '&' ∨ c = '+' ∨ c = ',' ∨ c = '/' ∨ c = ':' ∨ c = ';'
      ∨ c = '=' ∨ c = '?' ∨ c = '@' then
    if c = '/' ∨ c = ';' ∨ c = ',' ∨ c = '?' then true else false
  else
    true

/-- The upper-case hex digit for a value below 16, as in net/url's
`upperhex` table. -/
def upperHexDigit (n : Nat) : Char :=
  if n < 10 then Char.ofNat (48 + n) else Char.ofNat (55 + n)

/-- One character of `url.PathEscape`'s output: either the byte itself or
`%` followed by its two upper-case hex digits.  The inputs evaluated here
are ASCII, where Go's per-byte escaping coincides with per-character
escaping. -/
def escapeChar (c : Char) : List Char :=
  if shouldEscapePathSegment c then
    ['%', upperHexDigit (c.toNat / 16), upperHexDigit (c.toNat % 16)]
  else
    [c]

/-- `url.PathEscape` (net/url) over a character list. -/
def escapeList : List Char → List Char
  | [] => []
  | c :: rest => escapeChar c ++ escapeList rest

/-- `url.PathEscape` (net/url) on a string. -/
def pathEscape (s : String) : String :=
  ⟨escapeList s.data⟩

/-- Go `path.Join` on percent-encoded segments: the non-empty parts joined
by `/`.  (`path.Join` drops empty parts and runs `path.Clean`; on the
output of `pathEscape` a part contains no `/` and, for the identifiers
evaluated here, is not `.` or `..`, so `Clean` is the identity.) -/
def joinPath (parts : List String) : String :=
  String.intercalate "/" (parts.filter fun p => p ≠ "")

/-- `Client.dataPath` (client.go): percent-encode the data-source name and
every caller-supplied segment independently and join them under
`/api/session/data/`. -/
def dataPath (c : ClientState) (segments : List String) : String :=
  "/api/session/data/" ++ joinPath (pathEscape c.dataSource :: segments.map pathEscape)

/-! ## Helper lemmas -/

/-- Go map indexing of a key the map does not hold gives the zero value. -/
theorem lookupD_eq_empty_of_not_mem (m : StrMap) (k : String)
    (h : k ∉ keysOf m) : lookupD m k = "" := by
  induction m with
  | nil => rfl
  | cons kv rest ih =>
    obtain ⟨k₀, v₀⟩ := kv
    simp only [keysOf, List.map_cons, List.mem_cons, not_or] at h
    have hne : k₀ ≠ k := fun he => h.1 he.symm
    simpa [lookupD, hne] using ih (by simpa [keysOf] using h.2)

/-- Every key of the decoded map is a key of the JSON object. -/
theorem keysOf_unmarshalNSM_subset (raw : List (String × Option String)) :
    ∀ k, k ∈ keysOf (unmarshalNSM raw) → k ∈ keysOf raw := by
  induction raw with
  | nil => intro k h; exact absurd h (by simp [unmarshalNSM, keysOf])
  | cons kv rest ih =>
    obtain ⟨k₀, v₀⟩ := kv
    intro k h
    cases v₀ with
    | none => exact List.mem_cons_of_mem _ (ih k (by simpa [unmarshalNSM] using h))
    | some s =>
      simp only [unmarshalNSM, keysOf, List.map_cons, List.mem_cons] at h ⊢
      exact h.imp id (ih k)

/-- The decoded map's keys are exactly the object's non-null keys, in
order. -/
theorem keysOf_unmarshalNSM (raw : List (String × Option String)) :
    keysOf (unmarshalNSM raw) = keysOf (raw.filter fun kv => kv.2.isSome) := by
  induction raw with
  | nil => rfl
  | cons kv rest ih =>
    obtain ⟨k₀, v₀⟩ := kv
    cases v₀ <;> simp [unmarshalNSM, keysOf, List.filter_cons, ih] <;>
      simpa [keysOf] using ih

/-! ## The claims -/

/-- Claim C1: `NullableStringMap.MarshalJSON` always produces a JSON object
literal — the empty object for the nil (zero-value) and the empty map —
never the JSON value `null` and never an absent value. -/
theorem marshalNSM_always_object (m : NullableStringMap) :
    (marshalNSM m).isObj = true ∧ marshalNSM m ≠ Json.null ∧
    marshalNSM none = Json.obj [] ∧ marshalNSM (some []) = Json.obj [] := by
  refine ⟨?_, ?_, rfl, rfl⟩ <;> cases m <;> simp [marshalNSM, Json.isObj]

/-- Claim C2, counterexample: decoding the JSON object with the single
entry `"a": null` yields the empty map — the key `"a"` is in the input
object's key set but not in the decoded map's key set, so the key set is
not preserved as-is. -/
theorem unmarshalNSM_null_key_dropped_cex :
    "a" ∈ keysOf [("a", (none : Option String))] ∧
    "a" ∉ keysOf (unmarshalNSM [("a", (none : Option String))]) ∧
    unmarshalNSM [("a", (none : Option String))] = [] := by
  refine ⟨by simp [keysOf], by simp [unmarshalNSM, keysOf], rfl⟩

/-- A string-valued entry of the object is found unchanged in the decoded
map (keys of the object taken distinct, as JSON object keys are). -/
theorem lookupD_unmarshalNSM_some (raw : List (String × Option String))
    (hnd : (keysOf raw).Nodup) :
    ∀ k s, (k, some s) ∈ raw → lookupD (unmarshalNSM raw) k = s := by
  induction raw with
  | nil => intro k s h; exact absurd h (List.not_mem_nil _)
  | cons kv rest ih =>
    obtain ⟨k₀, v₀⟩ := kv
    simp only [keysOf, List.map_cons, List.nodup_cons] at hnd
    have ihr := ih hnd.2
    intro k s h
    cases v₀ with
    | none =>
      rcases List.mem_cons.mp h with heq | hmem
      · exact absurd (congrArg Prod.snd heq) (by simp)
      · exact ihr k s hmem
    | some s₀ =>
      rcases List.mem_cons.mp h with heq | hmem
      · injection heq with hk hv
        injection hv with hs
        subst hk; subst hs
        simp [unmarshalNSM, lookupD]
      · have hne : k₀ ≠ k := fun he => hnd.1 (he ▸ List.mem_map_of_mem Prod.fst hmem)
        simpa [unmarshalNSM, lookupD, hne] using ihr k s hmem

/-- A null-valued key of the object is absent from the decoded map, and
indexing the decoded map at it yields the zero value. -/
theorem lookupD_unmarshalNSM_none (raw : List (String × Option String))
    (hnd : (keysOf raw).Nodup) :
    ∀ k, (k, none) ∈ raw → lookupD (unmarshalNSM raw) k = "" ∧
      k ∉ keysOf (unmarshalNSM raw) := by
  intro k h
  have hk : k ∉ keysOf (unmarshalNSM raw) := by
    intro hmem
    rw [keysOf_unmarshalNSM raw] at hmem
    simp only [keysOf, List.mem_map] at hmem
    obtain ⟨⟨k', v'⟩, hin, hfst⟩ := hmem
    obtain ⟨hin', hsome⟩ := List.mem_filter.mp hin
    have hks : k = k' := by simpa using hfst.symm
    have hinj := List.inj_on_of_nodup_map (f := Prod.fst) (by simpa [keysOf] using hnd)
    have heq : ((k, none) : String × Option String) = (k', v') :=
      hinj h hin' (by simp [hks])
    rw [← heq] at hsome
    simp at hsome
  exact ⟨lookupD_eq_empty_of_not_mem _ _ hk, hk⟩

/-- Claim C2 as amended: for a JSON object (with distinct keys) whose
values are strings or `null`, decoding keeps every string-valued entry
unchanged, while a null-valued key is dropped from the resulting map's key
set — indexing the map at such a key still yields `""`, the zero value —
and the resulting key set is exactly the object's non-null-valued keys. -/
theorem unmarshalNSM_spec_amended (raw : List (String × Option String))
    (hnd : (keysOf raw).Nodup) :
    (∀ k s, (k, some s) ∈ raw → lookupD (unmarshalNSM raw) k = s) ∧
    (∀ k, (k, none) ∈ raw → lookupD (unmarshalNSM raw) k = "" ∧
      k ∉ keysOf (unmarshalNSM raw)) ∧
    keysOf (unmarshalNSM raw) = keysOf (raw.filter fun kv => kv.2.isSome) :=
  ⟨lookupD_unmarshalNSM_some raw hnd, lookupD_unmarshalNSM_none raw hnd,
    keysOf_unmarshalNSM raw⟩

/-- Claim C2, witness: decoding the object with entries `"a": "x"` and
`"b": null` leaves `"a"` at `"x"` and makes indexing at `"b"` yield the
empty string. -/
theorem unmarshalNSM_spec_amended_witness :
    lookupD (unmarshalNSM [("a", some "x"), ("b", (none : Option String))]) "a" = "x" ∧
    lookupD (unmarshalNSM [("a", some "x"), ("b", (none : Option String))]) "b" = "" := by
  have h := unmarshalNSM_spec_amended [("a", some "x"), ("b", none)] (by decide)
  exact ⟨h.1 "a" "x" (by decide), (h.2.1 "b" (by decide)).1⟩

/-- Claim C3: every patch-operation builder yields the fixed path template
of its edit kind and the operation matching its name — `add` for the `Add*`
builders and `remove` for the `Remove*` builders — with the permission
(respectively member identifier) as the value. -/
theorem patch_builders_paths_ops (id perm : String) :
    AddConnectionPermission id perm = ⟨"add", "/connectionPermissions/" ++ id, perm⟩ ∧
    RemoveConnectionPermission id perm = ⟨"remove", "/connectionPermissions/" ++ id, perm⟩ ∧
    AddConnectionGroupPermission id perm = ⟨"add", "/connectionGroupPermissions/" ++ id, perm⟩ ∧
    RemoveConnectionGroupPermission id perm = ⟨"remove", "/connectionGroupPermissions/" ++ id, perm⟩ ∧
    AddSharingProfilePermission id perm = ⟨"add", "/sharingProfilePermissions/" ++ id, perm⟩ ∧
    RemoveSharingProfilePermission id perm = ⟨"remove", "/sharingProfilePermissions/" ++ id, perm⟩ ∧
    AddUserPermission id perm = ⟨"add", "/userPermissions/" ++ id, perm⟩ ∧
    RemoveUserPermission id perm = ⟨"remove", "/userPermissions/" ++ id, perm⟩ ∧
    AddUserGroupPermission id perm = ⟨"add", "/userGroupPermissions/" ++ id, perm⟩ ∧
    RemoveUserGroupPermission id perm = ⟨"remove", "/userGroupPermissions/" ++ id, perm⟩ ∧
    AddSystemPermission perm = ⟨"add", "/systemPermissions", perm⟩ ∧
    RemoveSystemPermission perm = ⟨"remove", "/systemPermissions", perm⟩ ∧
    AddGroupMembership id = ⟨"add", "/", id⟩ ∧
    RemoveGroupMembership id = ⟨"remove", "/", id⟩ :=
  ⟨rfl, rfl, rfl, rfl, rfl, rfl, rfl, rfl, rfl, rfl, rfl, rfl, rfl, rfl⟩

/-- Claim C4: `IsNotFound` holds exactly when the error chain carries an
`*APIError` of type `NOT_FOUND`, `IsPermissionDenied` exactly when it
carries one of type `PERMISSION_DENIED`; both are false on the nil error
and both are unchanged by wrapping with added context. -/
theorem error_predicates_chain_spec :
    (∀ err : Option GoError,
      (IsNotFound err = true ↔ ∃ a ∈ errChain err, a.ErrType = "NOT_FOUND") ∧
      (IsPermissionDenied err = true ↔
        ∃ a ∈ errChain err, a.ErrType = "PERMISSION_DENIED")) ∧
    IsNotFound none = false ∧ IsPermissionDenied none = false ∧
    (∀ (e : GoError) (s : String),
      IsNotFound (some (.wrap s e)) = IsNotFound (some e) ∧
      IsPermissionDenied (some (.wrap s e)) = IsPermissionDenied (some e)) := by
  have chain_eq : ∀ e : GoError, errChain.chain e = (asAPIError e).toList := by
    intro e
    induction e with
    | apiErr a => rfl
    | wrap s inner ih => simpa [errChain.chain, asAPIError] using ih
    | other m => rfl
  refine ⟨?_, rfl, rfl, fun e s => ⟨rfl, rfl⟩⟩
  intro err
  constructor <;>
    · cases err with
      | none => simp [IsNotFound, IsPermissionDenied, errorsAsAPIError, errChain]
      | some e =>
        cases h : asAPIError e <;>
          simp [IsNotFound, IsPermissionDenied, errorsAsAPIError, errChain, chain_eq,
            h, APIError.IsNotFound, APIError.IsPermissionDenied,
            ErrTypeNotFound, ErrTypePermissionDenied]

/-- Claim C5: for a status outside [200,300), `do` returns `parseError` of
the response, whose `HTTPStatus` is the status; a body decodable with both
`message` and `type` present maps onto the error's message and type; a
non-decodable body becomes the message verbatim with an empty type. -/
theorem parseError_non2xx_spec (status : Nat) (body : RespBody)
    (h : status < 200 ∨ 300 ≤ status) :
    doCheck status body = .error (parseError status body) ∧
    (parseError status body).HTTPStatus = status ∧
    (∀ message etype, body = .jsonFields (some message) (some etype) →
      parseError status body = ⟨message, etype, status⟩) ∧
    (∀ s, body = .raw s → parseError status body = ⟨s, "", status⟩) := by
  refine ⟨by simp [doCheck, h], ?_, ?_, ?_⟩
  · cases body <;> rfl
  · intro message etype hb; subst hb; rfl
  · intro s hb; subst hb; rfl

/-- Claim C5, witness: a 404 with body fields `message = "Not found."`,
`type = "NOT_FOUND"` and a 503 with the raw body `"Service Unavailable"`. -/
theorem parseError_non2xx_spec_witness :
    ((404 : Nat) < 200 ∨ 300 ≤ 404) ∧
    (doCheck 404 (.jsonFields (some "Not found.") (some "NOT_FOUND")) =
      .error (parseError 404 (.jsonFields (some "Not found.") (some "NOT_FOUND"))) ∧
      (parseError 404 (.jsonFields (some "Not found.") (some "NOT_FOUND"))).HTTPStatus = 404 ∧
      (∀ message etype,
        (RespBody.jsonFields (some "Not found.") (some "NOT_FOUND")) =
          .jsonFields (some message) (some etype) →
        parseError 404 (.jsonFields (some "Not found.") (some "NOT_FOUND")) =
          ⟨message, etype, 404⟩) ∧
      (∀ s, (RespBody.jsonFields (some "Not found.") (some "NOT_FOUND")) = .raw s →
        parseError 404 (.jsonFields (some "Not found.") (some "NOT_FOUND")) =
          ⟨s, "", 404⟩)) :=
  ⟨by decide, parseError_non2xx_spec 404 (.jsonFields (some "Not found.") (some "NOT_FOUND"))
    (by decide)⟩

/-- Claim C6, behaviour at the failing inputs: `dataPath` percent-encodes a
space as `%20` and a slash as `%2F`, but leaves `@` unescaped — Go's
`url.PathEscape` does not escape `@` in a path segment — contradicting the
function's own doc-comment example `bob@example.com → bob%40example.com`. -/
theorem dataPath_escaping_behaviour :
    dataPath ⟨"http://localhost:8080/guacamole", "tok", "postgresql"⟩
        ["users", "bob@example.com"]
      = "/api/session/data/postgresql/users/bob@example.com" ∧
    dataPath ⟨"http://localhost:8080/guacamole", "tok", "postgresql"⟩
        ["users", "with space"]
      = "/api/session/data/postgresql/users/with%20space" ∧
    dataPath ⟨"http://localhost:8080/guacamole", "tok", "postgresql"⟩
        ["users", "group/name"]
      = "/api/session/data/postgresql/users/group%2Fname" :=
  ⟨rfl, rfl, rfl⟩

/-- Claim C7: a 200 token-exchange response carrying `authToken = "T"` and
`dataSource = "postgresql"` makes `Authenticate` return no error and store
both values, readable through `AuthToken` and `DataSource`. -/
theorem authenticate_success_stores_session (c : ClientState)
    (u : String) (ds : List String) (eb : RespBody) :
    Authenticate c ⟨200, eb, some ⟨"T", u, "postgresql", ds⟩⟩ =
      (⟨c.baseURL, "T", "postgresql"⟩, none) ∧
    (Authenticate c ⟨200, eb, some ⟨"T", u, "postgresql", ds⟩⟩).1.AuthToken = "T" ∧
    (Authenticate c ⟨200, eb, some ⟨"T", u, "postgresql", ds⟩⟩).1.DataSource
      = "postgresql" :=
  ⟨rfl, rfl, rfl⟩

/-- Claim C8: on any response with a status outside [200,300),
`Authenticate` returns the `*APIError` built by `parseError` and leaves the
stored token and data source exactly as they were before the call. -/
theorem authenticate_non2xx_preserves_state (c : ClientState)
    (resp : TokenResponse) (h : resp.status < 200 ∨ 300 ≤ resp.status) :
    Authenticate c resp = (c, some (.apiErr (parseError resp.status resp.errBody))) ∧
    (Authenticate c resp).1.AuthToken = c.AuthToken ∧
    (Authenticate c resp).1.DataSource = c.DataSource := by
  have hne : resp.status ≠ 200 := by omega
  simp [Authenticate, hne]

/-- Claim C8, witness: a 403 with a `PERMISSION_DENIED` body leaves the
prior session fields `"old-token"` and `"mysql"` in place. -/
theorem authenticate_non2xx_preserves_state_witness :
    ((403 : Nat) < 200 ∨ 300 ≤ 403) ∧
    (Authenticate ⟨"http://h", "old-token", "mysql"⟩
        ⟨403, .jsonFields (some "Permission Denied.") (some "PERMISSION_DENIED"), none⟩ =
      (⟨"http://h", "old-token", "mysql"⟩,
        some (.apiErr ⟨"Permission Denied.", "PERMISSION_DENIED", 403⟩)) ∧
      (Authenticate ⟨"http://h", "old-token", "mysql"⟩
        ⟨403, .jsonFields (some "Permission Denied.") (some "PERMISSION_DENIED"), none⟩).1.AuthToken
        = ClientState.AuthToken ⟨"http://h", "old-token", "mysql"⟩ ∧
      (Authenticate ⟨"http://h", "old-token", "mysql"⟩
        ⟨403, .jsonFields (some "Permission Denied.") (some "PERMISSION_DENIED"), none⟩).1.DataSource
        = ClientState.DataSource ⟨"http://h", "old-token", "mysql"⟩) :=
  ⟨by decide, authenticate_non2xx_preserves_state ⟨"http://h", "old-token", "mysql"⟩
    ⟨403, .jsonFields (some "Permission Denied.") (some "PERMISSION_DENIED"), none⟩
    (by decide)⟩

/-- Claim C9: the request built by `do` carries
`Content-Type: application/json` exactly when a body is supplied (the
header is absent for bodyless requests), and carries `Guacamole-Token`
with the stored token exactly when that token is set (absent when it is
not). -/
theorem do_headers_iff (c : ClientState) (method p : String) (body : Option Json) :
    ((buildRequest c method p body).contentType = some "application/json" ↔
      body ≠ none) ∧
    ((buildRequest c method p body).contentType = none ↔ body = none) ∧
    ((buildRequest c method p body).guacToken = some c.authToken ↔
      c.authToken ≠ "") ∧
    ((buildRequest c method p body).guacToken = none ↔ c.authToken = "") := by
  by_cases hc : c.authToken = "" <;> cases body <;> simp [buildRequest, hc]

/-- Claim C10: `Authenticate` treats exactly status 200 as success; any
other status — 2xx codes like 201 and 204 included — yields the
`*APIError` from `parseError` and assigns neither session field. -/
theorem authenticate_only_200_succeeds (c : ClientState)
    (resp : TokenResponse) (h : resp.status ≠ 200) :
    Authenticate c resp = (c, some (.apiErr (parseError resp.status resp.errBody))) := by
  simp [Authenticate, h]

/-- Claim C10, witness: 201 (even with a well-formed auth body) and 204
both fail and leave the session state untouched. -/
theorem authenticate_only_200_succeeds_witness :
    Authenticate ⟨"http://h", "tk", "dsrc"⟩
        ⟨201, .empty, some ⟨"T", "u", "postgresql", []⟩⟩ =
      (⟨"http://h", "tk", "dsrc"⟩, some (.apiErr ⟨"Created", "", 201⟩)) ∧
    Authenticate ⟨"http://h", "tk", "dsrc"⟩ ⟨204, .empty, none⟩ =
      (⟨"http://h", "tk", "dsrc"⟩, some (.apiErr ⟨"No Content", "", 204⟩)) :=
  ⟨authenticate_only_200_succeeds ⟨"http://h", "tk", "dsrc"⟩
      ⟨201, .empty, some ⟨"T", "u", "postgresql", []⟩⟩ (by decide),
    authenticate_only_200_succeeds ⟨"http://h", "tk", "dsrc"⟩
      ⟨204, .empty, none⟩ (by decide)⟩

end Guacamole
